import Mathlib

/-!
Verification of the MediaFinder organizer, `organize_files.py`.

The development shallowly embeds the core of the program:

* a model of `pathlib.PurePath` (drive, root, components) with the
  `name`, `parent`, `parts`, `stem` and `suffix` operations used by the
  source;
* the static tables `FILE_CATEGORIES` and `EXCLUDED_DIRS` and the pure
  functions `get_file_category` and `should_exclude_directory`;
* the scanner `scan_for_files` over walk-ordered file lists, with the
  drive-level exception handling of the source;
* the planner `create_hybrid_structure` (namespace derivation, recursive
  directory creation, and the duplicate-name while-loop) and the
  materializer `create_symbolic_links` over an explicit output-filesystem
  state, with `os.symlink` failures supplied by an error oracle.

Machine integers do not occur in the program; counters are `Nat`.
-/

/-- Model of Python `str.lower` on the character range that matters here:
ASCII uppercase letters map to their lowercase forms and every other
character is unchanged (every entry of the program's static tables is
lowercase ASCII). -/
def lowerChar (c : Char) : Char :=
  match c with
  | 'A' => 'a'
  | 'B' => 'b'
  | 'C' => 'c'
  | 'D' => 'd'
  | 'E' => 'e'
  | 'F' => 'f'
  | 'G' => 'g'
  | 'H' => 'h'
  | 'I' => 'i'
  | 'J' => 'j'
  | 'K' => 'k'
  | 'L' => 'l'
  | 'M' => 'm'
  | 'N' => 'n'
  | 'O' => 'o'
  | 'P' => 'p'
  | 'Q' => 'q'
  | 'R' => 'r'
  | 'S' => 's'
  | 'T' => 't'
  | 'U' => 'u'
  | 'V' => 'v'
  | 'W' => 'w'
  | 'X' => 'x'
  | 'Y' => 'y'
  | 'Z' => 'z'
  | other => other

/-- Python `str.lower` lifted to strings. -/
def lowerStr (s : String) : String :=
  ⟨s.data.map lowerChar⟩

/-- Index of the last occurrence of a dot in a list of characters, if any;
this is the `name.rfind` that `pathlib` uses for `stem` and `suffix`. -/
def lastDotIdx : List Char → Option Nat
  | [] => none
  | c :: cs =>
    match lastDotIdx cs with
    | some i => some (i + 1)
    | none => if c = ('.') then some 0 else none

/-- The `pathlib.PurePath.suffix` of a file name: the substring from the
last dot onward, provided that dot is neither the first nor the last
character of the name; otherwise the empty extension. -/
def pySuffixOfName (name : List Char) : List Char :=
  match lastDotIdx name with
  | none => []
  | some i => if 0 < i ∧ i < name.length - 1 then name.drop i else []

/-- The `pathlib.PurePath.stem` of a file name: everything before the
extension, or the whole name when there is no extension. -/
def pyStemOfName (name : List Char) : List Char :=
  match lastDotIdx name with
  | none => name
  | some i => if 0 < i ∧ i < name.length - 1 then name.take i else name

/-- Model of a `pathlib.PurePath`: an optional drive (such as `C:`), an
optional root separator (such as `/` or `\`), and the relative components
that follow the anchor. -/
structure PyPath where
  drive : String
  root : String
  comps : List String
deriving DecidableEq

/-- The `pathlib` `name` property: the final component, or the empty string
for a path with no components (a bare anchor or the path `.`). -/
def PyPath.pyName (p : PyPath) : String :=
  match p.comps.getLast? with
  | some s => s
  | none => ("")

/-- The `pathlib` `parent` property: drop the final component; an anchor
(or `.`) is its own parent. -/
def PyPath.parent (p : PyPath) : PyPath :=
  { p with comps := p.comps.dropLast }

/-- The `pathlib` `parts` property: the anchor (drive plus root), when it is
nonempty, followed by the relative components. -/
def PyPath.parts (p : PyPath) : List String :=
  if p.drive ++ p.root = ("") then p.comps else (p.drive ++ p.root) :: p.comps

/-- The `pathlib` `suffix` property of the path. -/
def PyPath.suffix (p : PyPath) : String :=
  ⟨pySuffixOfName p.pyName.data⟩

/-- The `pathlib` `stem` property of the path. -/
def PyPath.stem (p : PyPath) : String :=
  ⟨pyStemOfName p.pyName.data⟩

/-- A bare file name regarded as a relative path, as built by the tests
(`Path("photo.jpg")`). -/
def pathOfName (s : String) : PyPath :=
  ⟨("") , ("") , [s]⟩

/-- The static table `FILE_CATEGORIES` of `organize_files.py`; dictionary
iteration follows insertion order. -/
def FILE_CATEGORIES : List (String × List String) :=
  [ (("pictures"),
     [(".jpg"), (".jpeg"), (".png"), (".gif"), (".bmp"), (".webp"), (".svg"),
      (".tiff"), (".tif"), (".ico"), (".heic"), (".raw")]),
    (("audio"),
     [(".mp3"), (".wav"), (".flac"), (".m4a"), (".aac"), (".ogg"), (".wma"),
      (".opus"), (".ape"), (".alac")]),
    (("video"),
     [(".mp4"), (".avi"), (".mkv"), (".mov"), (".wmv"), (".flv"), (".webm"),
      (".m4v"), (".mpg"), (".mpeg"), (".3gp")]),
    (("text"),
     [(".txt"), (".pdf"), (".doc"), (".docx"), (".rtf"), (".odt"), (".md"),
      (".epub"), (".mobi")]) ]

/-- `organize_files.get_file_category`: lowercase the `pathlib` suffix of
the path and return the first category whose extension set contains it, or
none. -/
def get_file_category (file_path : PyPath) : Option String :=
  let extension := lowerStr file_path.suffix
  (FILE_CATEGORIES.find? (fun ce => decide (extension ∈ ce.2))).map (fun ce => ce.1)

/-- The static exclusion set `EXCLUDED_DIRS` of `organize_files.py` (all
entries lowercase). -/
def EXCLUDED_DIRS : List String :=
  [ ("windows"), ("program files"), ("program files (x86)"), ("programdata"),
    ("$recycle.bin"), ("system volume information"), ("$windows.~bt"), ("$windows.~ws"),
    ("recovery"), ("boot"), ("msocache"), ("perflogs"),
    ("appdata"), ("temp"), ("tmp"), ("cache"), ("caches"),
    ("node_modules"), ("venv"), ("__pycache__"), (".venv"), ("env"),
    ("build"), ("dist"), (".next"), (".nuxt"), ("target"),
    (".git"), (".svn"), (".hg"),
    (".cache"), (".config"), (".vscode"), (".idea") ]

/-- `organize_files.should_exclude_directory`: a hidden leaf name, a leaf
name in the exclusion set (case-insensitively), or any path component in
the exclusion set (case-insensitively) forces exclusion. The try/except
around the component check is irrelevant here: the component walk is
total. -/
def should_exclude_directory (path : PyPath) : Bool :=
  if path.pyName.startsWith (".") then true
  else if lowerStr path.pyName ∈ EXCLUDED_DIRS then true
  else if (path.parts.map lowerStr).any (fun pl => decide (pl ∈ EXCLUDED_DIRS)) then true
  else false

theorem lowerChar_eq_dot_iff (c : Char) : lowerChar c = ('.') ↔ c = ('.') := by
  constructor
  · intro h
    unfold lowerChar at h
    split at h <;> first | (exact absurd h (by decide)) | exact h
  · intro h
    subst h
    rfl

theorem lastDotIdx_map_lower (cs : List Char) :
    lastDotIdx (cs.map lowerChar) = lastDotIdx cs := by
  induction cs with
  | nil => rfl
  | cons c cs ih =>
    simp only [List.map_cons, lastDotIdx, ih]
    cases lastDotIdx cs with
    | some i => rfl
    | none => simp [lowerChar_eq_dot_iff]

theorem pySuffixOfName_map_lower (cs : List Char) :
    pySuffixOfName (cs.map lowerChar) = (pySuffixOfName cs).map lowerChar := by
  unfold pySuffixOfName
  rw [lastDotIdx_map_lower]
  cases lastDotIdx cs with
  | none => rfl
  | some i =>
    simp only [List.length_map]
    split
    · exact (List.map_drop lowerChar cs i).symm
    · rfl

theorem strOfData_inj {a b : List Char} (h : (⟨a⟩ : String) = ⟨b⟩) : a = b := by
  injection h

/-- Claim C6: the classifier extracts the final extension (none for a
dotless name or a bare leading dot), lowercases it and looks it up in the
static table, so classification is case-insensitive and deterministic;
`PHOTO.JPG` and `photo.jpg` are both pictures, and `unknown.xyz` and
`README` are uncategorized. -/
theorem claim6_classifier_contract :
    (∀ s t : String, lowerStr s = lowerStr t →
      get_file_category (pathOfName s) = get_file_category (pathOfName t)) ∧
    get_file_category (pathOfName ("PHOTO.JPG")) = some ("pictures") ∧
    get_file_category (pathOfName ("photo.jpg")) = some ("pictures") ∧
    get_file_category (pathOfName ("unknown.xyz")) = none ∧
    get_file_category (pathOfName ("README")) = none := by
  refine ⟨?_, by decide, by decide, by decide, by decide⟩
  intro s t h
  have hdata : s.data.map lowerChar = t.data.map lowerChar := strOfData_inj h
  have hext : lowerStr (pathOfName s).suffix = lowerStr (pathOfName t).suffix := by
    show (⟨(pySuffixOfName s.data).map lowerChar⟩ : String) = ⟨(pySuffixOfName t.data).map lowerChar⟩
    rw [← pySuffixOfName_map_lower, ← pySuffixOfName_map_lower, hdata]
  unfold get_file_category
  rw [hext]

theorem claim6_witness :
    get_file_category (pathOfName ("PHOTO.JPG")) = get_file_category (pathOfName ("photo.jpg")) :=
  claim6_classifier_contract.1 ("PHOTO.JPG") ("photo.jpg") (by decide)

/-- Claim C7: a directory path with an excluded component anywhere among
its ancestor components is excluded, whatever its leaf name is. -/
theorem claim7_ancestor_exclusion (p : PyPath)
    (h : ∃ a ∈ p.parts.dropLast, lowerStr a ∈ EXCLUDED_DIRS) :
    should_exclude_directory p = true := by
  unfold should_exclude_directory
  split
  · rfl
  · split
    · rfl
    · split
      · rfl
      · rename_i hany
        exfalso
        apply hany
        obtain ⟨a, hmem, hexc⟩ := h
        refine List.any_eq_true.mpr ⟨lowerStr a, List.mem_map_of_mem lowerStr ?_, by simpa using hexc⟩
        exact List.dropLast_subset _ hmem

theorem claim7_witness :
    should_exclude_directory (⟨("C:"), ("\\"), [("Users"), ("AppData"), ("Documents")]⟩) = true ∧
    (⟨("C:"), ("\\"), [("Users"), ("AppData"), ("Documents")]⟩ : PyPath).pyName = ("Documents") :=
  ⟨claim7_ancestor_exclusion _ ⟨("AppData"), by decide, by decide⟩, by decide⟩

/-- One file of the walk over a drive, with the two per-file conditions the
scanner body distinguishes: file metadata marking it as a system file, and
an exception that escapes the per-file handlers (the `stat` try catches
only `AttributeError` and `OSError`, and the progress observer runs bare),
landing in the drive-level except clauses. -/
structure ScanFile where
  path : PyPath
  isSystem : Bool
  raisesException : Bool
deriving DecidableEq

/-- The per-drive file loop of `scan_for_files`: system files are skipped,
classified files are appended to the shared accumulator, and a file whose
processing raises aborts the remainder of the drive, because the
try/except sits outside the walk loop, at drive level. -/
def scanDrive : List ScanFile → List (String × PyPath) → List (String × PyPath)
  | [], acc => acc
  | f :: fs, acc =>
    if f.raisesException then acc
    else if f.isSystem then scanDrive fs acc
    else
      match get_file_category f.path with
      | some category => scanDrive fs (acc ++ [(category, f.path)])
      | none => scanDrive fs acc

/-- `organize_files.scan_for_files`: each drive is processed inside its own
try/except, all appending into one inventory, recorded here as the
discovery-ordered list of (category, file) pairs that the defaultdict
groups by category. -/
def scan_for_files (drives : List (List ScanFile)) : List (String × PyPath) :=
  drives.foldl (fun acc d => scanDrive d acc) []

theorem scanDrive_acc (fs : List ScanFile) :
    ∀ acc : List (String × PyPath), scanDrive fs acc = acc ++ scanDrive fs [] := by
  induction fs with
  | nil => intro acc; simp [scanDrive]
  | cons f fs ih =>
    intro acc
    unfold scanDrive
    split
    · simp
    · split
      · exact ih acc
      · cases hc : get_file_category f.path with
        | some category =>
          simp only [hc]
          rw [ih (acc ++ [(category, f.path)]), ih ([] ++ [(category, f.path)])]
          simp
        | none => simp only [hc]; exact ih acc

theorem scanFold_acc (ds : List (List ScanFile)) :
    ∀ acc : List (String × PyPath),
      ds.foldl (fun a d => scanDrive d a) acc = acc ++ scan_for_files ds := by
  induction ds with
  | nil => intro acc; simp [scan_for_files]
  | cons d ds ih =>
    intro acc
    show ds.foldl (fun a d => scanDrive d a) (scanDrive d acc) = _
    rw [ih (scanDrive d acc), scanDrive_acc d acc]
    show _ = acc ++ ds.foldl (fun a d => scanDrive d a) (scanDrive d [])
    rw [ih (scanDrive d []), List.append_assoc]

def rFile1 : ScanFile := ⟨⟨("") , ("/") , [("d1"), ("img1.jpg")]⟩, false, true⟩
def rFile2 : ScanFile := ⟨⟨("") , ("/") , [("d1"), ("img2.jpg")]⟩, false, false⟩
def rFile3 : ScanFile := ⟨⟨("") , ("/") , [("d2"), ("song.mp3")]⟩, false, false⟩

/-- Claim C4 counterexample: in the run over two roots, an exception while
processing the first file of the first root prevents its classifiable
sibling `img2.jpg` from ever entering the inventory, while the second root
is still scanned — the claim that siblings survive a per-file exception is
false. -/
theorem claim4_counterexample :
    scan_for_files [[rFile1, rFile2], [rFile3]] = [(("audio"), rFile3.path)] ∧
    get_file_category rFile2.path = some ("pictures") ∧
    (("pictures"), rFile2.path) ∉ scan_for_files [[rFile1, rFile2], [rFile3]] := by
  decide

/-- Claim C4 (amended): exception isolation holds at root granularity, not
at sibling granularity: whatever exceptions occur while processing other
roots, every root contributes exactly the classified files of its own walk
(up to its own first escaping exception) to the final inventory. -/
theorem claim4_amended (ds1 : List (List ScanFile)) (d : List ScanFile)
    (ds2 : List (List ScanFile)) :
    scan_for_files (ds1 ++ d :: ds2) =
      scan_for_files ds1 ++ scanDrive d [] ++ scan_for_files ds2 := by
  unfold scan_for_files
  rw [List.foldl_append]
  show ((d :: ds2).foldl (fun a d => scanDrive d a) (scan_for_files ds1)) = _
  show (ds2.foldl (fun a d => scanDrive d a) (scanDrive d (scan_for_files ds1))) = _
  rw [scanFold_acc ds2, scanDrive_acc d (scan_for_files ds1)]
  simp [scan_for_files, List.append_assoc]

/-- The output filesystem: the list of paths (directories and symbolic
links) that currently exist under scrutiny, each path as its component
list. Links point at scanned source files, which exist throughout a run,
so path existence coincides with membership here. -/
abbrev FS := List (List String)

/-- Joining one more component onto a path, as `pathlib` does: empty
components are dropped. -/
def pathJoin (dir : List String) (s : String) : List String :=
  if s = ("") then dir else dir ++ [s]

/-- Every nonempty ancestor path of a directory path, shortest first. -/
def pathAncestors (dir : List String) : List (List String) :=
  (List.range dir.length).map (fun i => dir.take (i + 1))

/-- `Path.mkdir(parents=True, exist_ok=True)`: create every missing
ancestor of the directory; creating an existing one is not an error. -/
def mkdir_parents (fs : FS) (dir : List String) : FS :=
  (pathAncestors dir).foldl (fun f p => if p ∈ f then f else p :: f) fs

/-- The decimal digit characters used when rendering the counter. -/
def digitChar (d : Nat) : Char :=
  Char.ofNat (48 + d)

/-- Decimal rendering with explicit fuel, so that the definition is
structurally recursive and evaluates by kernel reduction; the division
chain of an n-digit number needs far less fuel than n. -/
def natDigitsAux : Nat → Nat → List Char
  | 0, n => [digitChar n]
  | fuel + 1, n =>
    if n < 10 then [digitChar n]
    else natDigitsAux fuel (n / 10) ++ [digitChar (n % 10)]

/-- Decimal rendering of a natural number, most significant digit first:
the rendering of the counter inside the f-string of
`create_hybrid_structure`. -/
def natDigits (n : Nat) : List Char :=
  natDigitsAux n n

/-- Decimal rendering as a string. -/
def natToStr (n : Nat) : String :=
  ⟨natDigits n⟩

theorem natDigitsAux_small (fuel n : Nat) (h : n < 10) :
    natDigitsAux fuel n = [digitChar n] := by
  cases fuel with
  | zero => rfl
  | succ fuel => exact if_pos h

theorem natDigitsAux_fuel : ∀ n : Nat, ∀ f1 f2 : Nat, n ≤ f1 → n ≤ f2 →
    natDigitsAux f1 n = natDigitsAux f2 n := by
  intro n
  induction n using Nat.strong_induction_on with
  | _ n ih =>
    intro f1 f2 h1 h2
    by_cases hn : n < 10
    · rw [natDigitsAux_small f1 n hn, natDigitsAux_small f2 n hn]
    · obtain ⟨g1, rfl⟩ : ∃ g1, f1 = g1 + 1 := ⟨f1 - 1, by omega⟩
      obtain ⟨g2, rfl⟩ : ∃ g2, f2 = g2 + 1 := ⟨f2 - 1, by omega⟩
      show (if n < 10 then _ else natDigitsAux g1 (n / 10) ++ _) =
        (if n < 10 then _ else natDigitsAux g2 (n / 10) ++ _)
      rw [if_neg hn, if_neg hn,
        ih (n / 10) (Nat.div_lt_self (by omega) (by omega)) g1 g2
          (by omega) (by omega)]

theorem natDigits_unfold (n : Nat) :
    natDigits n = if n < 10 then [digitChar n]
      else natDigits (n / 10) ++ [digitChar (n % 10)] := by
  by_cases hn : n < 10
  · rw [if_pos hn]
    exact natDigitsAux_small n n hn
  · rw [if_neg hn]
    obtain ⟨g, hg⟩ : ∃ g, n = g + 1 := ⟨n - 1, by omega⟩
    show natDigitsAux n n = natDigitsAux (n / 10) (n / 10) ++ [digitChar (n % 10)]
    rw [hg]
    show (if g + 1 < 10 then _ else natDigitsAux g ((g + 1) / 10) ++ _) = _
    rw [if_neg (hg ▸ hn)]
    rw [natDigitsAux_fuel ((g + 1) / 10) g ((g + 1) / 10) (by omega) (le_refl _)]

theorem natDigits_ne_nil (n : Nat) : natDigits n ≠ [] := by
  rw [natDigits_unfold]
  split
  · simp
  · simp

theorem digitChar_inj_lt : ∀ a : Nat, a < 10 → ∀ b : Nat, b < 10 →
    digitChar a = digitChar b → a = b := by
  decide

theorem natDigits_inj : ∀ m n : Nat, natDigits m = natDigits n → m = n := by
  intro m
  induction m using Nat.strong_induction_on with
  | _ m ih =>
    intro n h
    rw [natDigits_unfold m, natDigits_unfold n] at h
    by_cases hm : m < 10 <;> by_cases hn : n < 10 <;>
      simp only [hm, hn, if_true, if_false] at h
    · exact digitChar_inj_lt m hm n hn (by simpa using h)
    · cases hnd : natDigits (n / 10) with
      | nil => exact absurd hnd (natDigits_ne_nil _)
      | cons a l =>
        rw [hnd] at h
        simp at h
    · cases hmd : natDigits (m / 10) with
      | nil => exact absurd hmd (natDigits_ne_nil _)
      | cons a l =>
        rw [hmd] at h
        simp at h
    · have hrev := congrArg List.reverse h
      simp only [List.reverse_append, List.reverse_cons, List.reverse_nil,
        List.nil_append, List.singleton_append, List.cons.injEq] at hrev
      have hmod : m % 10 = n % 10 :=
        digitChar_inj_lt _ (Nat.mod_lt _ (by omega)) _ (Nat.mod_lt _ (by omega)) hrev.1
      have hdiv : m / 10 = n / 10 := by
        apply ih (m / 10) (Nat.div_lt_self (by omega) (by omega))
        have := congrArg List.reverse hrev.2
        simpa using this
      omega

theorem natToStr_inj {m n : Nat} (h : natToStr m = natToStr n) : m = n :=
  natDigits_inj m n (strOfData_inj h)

/-- The candidate file name `f"{stem}_{counter}{suffix}"` tried by the
duplicate-name loop. -/
def suffixedName (source_file : PyPath) (counter : Nat) : String :=
  source_file.stem ++ ("_") ++ natToStr counter ++ source_file.suffix

theorem strData_append (a b : String) : (a ++ b).data = a.data ++ b.data :=
  String.data_append a b

theorem suffixedName_inj (sf : PyPath) {k1 k2 : Nat}
    (h : suffixedName sf k1 = suffixedName sf k2) : k1 = k2 := by
  unfold suffixedName at h
  have h' := congrArg String.data h
  simp only [strData_append, List.append_assoc] at h'
  have h2 := List.append_cancel_left h'
  have h3 := List.append_cancel_left h2
  have h4 := List.append_cancel_right h3
  exact natToStr_inj (by
    show (⟨(natToStr k1).data⟩ : String) = ⟨(natToStr k2).data⟩
    rw [h4])

theorem suffixedName_ne_empty (sf : PyPath) (k : Nat) : suffixedName sf k ≠ ("") := by
  intro h
  have h' := congrArg String.data h
  simp only [suffixedName, strData_append, List.append_assoc] at h'
  rcases List.append_eq_nil.mp h' with ⟨-, h2⟩
  rcases List.append_eq_nil.mp h2 with ⟨h3, -⟩
  exact absurd h3 (by decide)

theorem strExt {a b : String} (h : a.data = b.data) : a = b := by
  cases a
  cases b
  exact congrArg String.mk h

theorem stem_append_suffix (p : PyPath) : p.stem ++ p.suffix = p.pyName := by
  apply strExt
  rw [strData_append]
  show pyStemOfName p.pyName.data ++ pySuffixOfName p.pyName.data = _
  rcases hdot : lastDotIdx p.pyName.data with - | i
  · simp [pyStemOfName, pySuffixOfName, hdot]
  · by_cases hcond : 0 < i ∧ i < p.pyName.length - 1
    · simp [pyStemOfName, pySuffixOfName, hdot, hcond, List.take_append_drop]
    · simp [pyStemOfName, pySuffixOfName, hdot, hcond]

theorem suffixedName_ne_name (sf : PyPath) (k : Nat) : suffixedName sf k ≠ sf.pyName := by
  intro h
  have hlen := congrArg String.length h
  rw [← stem_append_suffix sf] at hlen
  have hd : 0 < (natToStr k).length := by
    show 0 < (natDigits k).length
    exact List.length_pos.mpr (natDigits_ne_nil k)
  simp only [suffixedName, String.length_append] at hlen
  have h1 : (("_") : String).length = 1 := by decide
  omega

/-- The body of the duplicate-name while-loop of
`create_hybrid_structure`: starting from the current candidate and counter
value, keep moving to `f"{stem}_{counter}{suffix}"` while the candidate
exists. The Python loop is unbounded; here it carries fuel, and
`collideResolve` hands it enough fuel to always find a free path (see
`collideResolve_fresh`), so the fuel-exhausted branch is unreachable. -/
def collideGo (fs : FS) (target_dir : List String) (source_file : PyPath) :
    Nat → List String → Nat → List String
  | 0, target_path, _ => target_path
  | fuel + 1, target_path, counter =>
    if target_path ∈ fs then
      collideGo fs target_dir source_file fuel
        (pathJoin target_dir (suffixedName source_file counter)) (counter + 1)
    else target_path

/-- The duplicate-name while-loop of `create_hybrid_structure`: first
candidate is `target_dir / source_file.name`, the counter starts at 1. -/
def collideResolve (fs : FS) (target_dir : List String) (source_file : PyPath) : List String :=
  collideGo fs target_dir source_file (fs.length + 1)
    (pathJoin target_dir source_file.pyName) 1

/-- The sequence of candidate paths the loop inspects, starting from a
given current candidate and counter value. -/
def candFrom (target_dir : List String) (source_file : PyPath)
    (cur : List String) (counter : Nat) : Nat → List String
  | 0 => cur
  | i + 1 => pathJoin target_dir (suffixedName source_file (counter + i))

theorem candFrom_shift (target_dir : List String) (source_file : PyPath)
    (cur : List String) (counter : Nat) (j : Nat) :
    candFrom target_dir source_file
        (pathJoin target_dir (suffixedName source_file counter)) (counter + 1) j =
      candFrom target_dir source_file cur counter (j + 1) := by
  cases j with
  | zero => simp [candFrom]
  | succ i =>
    show pathJoin target_dir (suffixedName source_file (counter + 1 + i)) =
      pathJoin target_dir (suffixedName source_file (counter + (i + 1)))
    have : counter + 1 + i = counter + (i + 1) := by omega
    rw [this]

theorem collideGo_fresh (fs : FS) (target_dir : List String) (source_file : PyPath) :
    ∀ (fuel : Nat) (cur : List String) (counter : Nat),
      (∃ i ≤ fuel, candFrom target_dir source_file cur counter i ∉ fs) →
      collideGo fs target_dir source_file fuel cur counter ∉ fs := by
  intro fuel
  induction fuel with
  | zero =>
    intro cur counter h
    obtain ⟨i, hi, hmem⟩ := h
    have : i = 0 := by omega
    subst this
    exact hmem
  | succ fuel ih =>
    intro cur counter h
    show (if cur ∈ fs then _ else cur) ∉ fs
    split
    · rename_i hcur
      apply ih
      obtain ⟨i, hi, hmem⟩ := h
      cases i with
      | zero => exact absurd hcur hmem
      | succ j =>
        exact ⟨j, by omega, by
          rw [candFrom_shift target_dir source_file cur counter j]
          exact hmem⟩
    · rename_i hcur
      exact hcur

theorem pathJoin_suffixed_inj (target_dir : List String) (source_file : PyPath) :
    Function.Injective
      (fun j : Nat => pathJoin target_dir (suffixedName source_file (1 + j))) := by
  intro j1 j2 h
  simp only [pathJoin, suffixedName_ne_empty, if_neg] at h
  have h1 : suffixedName source_file (1 + j1) = suffixedName source_file (1 + j2) := by
    have := List.append_cancel_left h
    simpa using this
  have := suffixedName_inj source_file h1
  omega

theorem exists_fresh_cand (fs : FS) (target_dir : List String) (source_file : PyPath)
    (cur : List String) :
    ∃ i ≤ fs.length + 1, candFrom target_dir source_file cur 1 i ∉ fs := by
  by_contra hall
  push_neg at hall
  have hmem : ∀ j < fs.length + 1,
      pathJoin target_dir (suffixedName source_file (1 + j)) ∈ fs := by
    intro j hj
    exact hall (j + 1) (by omega)
  set cands : List (List String) :=
    (List.range (fs.length + 1)).map
      (fun j => pathJoin target_dir (suffixedName source_file (1 + j))) with hcands
  have hnodup : cands.Nodup :=
    (List.nodup_range _).map (pathJoin_suffixed_inj target_dir source_file)
  have hsub : cands.toFinset ⊆ fs.toFinset := by
    intro x hx
    rw [List.mem_toFinset] at hx ⊢
    obtain ⟨j, hj, rfl⟩ := List.mem_map.mp hx
    exact hmem j (List.mem_range.mp hj)
  have hcard1 : cands.toFinset.card = fs.length + 1 := by
    rw [List.card_toFinset, hnodup.dedup]
    simp [hcands]
  have hcard2 : fs.toFinset.card ≤ fs.length := List.toFinset_card_le fs
  have := Finset.card_le_card hsub
  omega

theorem collideResolve_fresh (fs : FS) (target_dir : List String) (source_file : PyPath) :
    collideResolve fs target_dir source_file ∉ fs :=
  collideGo_fresh fs target_dir source_file (fs.length + 1)
    (pathJoin target_dir source_file.pyName) 1
    (exists_fresh_cand fs target_dir source_file _)

theorem collideGo_stop (fs : FS) (target_dir : List String) (source_file : PyPath)
    (fuel : Nat) (cur : List String) (counter : Nat) (h : cur ∉ fs) :
    collideGo fs target_dir source_file (fuel + 1) cur counter = cur := by
  show (if cur ∈ fs then _ else cur) = cur
  rw [if_neg h]

theorem collideGo_step (fs : FS) (target_dir : List String) (source_file : PyPath)
    (fuel : Nat) (cur : List String) (counter : Nat) (h : cur ∈ fs) :
    collideGo fs target_dir source_file (fuel + 1) cur counter =
      collideGo fs target_dir source_file fuel
        (pathJoin target_dir (suffixedName source_file counter)) (counter + 1) := by
  show (if cur ∈ fs then _ else cur) = _
  rw [if_pos h]

theorem collideResolve_of_free (fs : FS) (target_dir : List String) (source_file : PyPath)
    (h : pathJoin target_dir source_file.pyName ∉ fs) :
    collideResolve fs target_dir source_file = pathJoin target_dir source_file.pyName :=
  collideGo_stop fs target_dir source_file fs.length _ 1 h

theorem collideResolve_second (fs : FS) (target_dir : List String) (source_file : PyPath)
    (h0 : pathJoin target_dir source_file.pyName ∈ fs)
    (h1 : pathJoin target_dir (suffixedName source_file 1) ∉ fs) :
    collideResolve fs target_dir source_file =
      pathJoin target_dir (suffixedName source_file 1) := by
  have hpos : 0 < fs.length := List.length_pos_of_mem h0
  obtain ⟨k, hk⟩ : ∃ k, fs.length = k + 1 := ⟨fs.length - 1, by omega⟩
  unfold collideResolve
  rw [hk, collideGo_step fs target_dir source_file (k + 1) _ 1 h0,
    collideGo_stop fs target_dir source_file k _ 2 h1]

/-- Python `str.replace(pat, "")` for the one-character patterns used at
line 195 of the source: remove every occurrence of the character. -/
def removeAllChar (s : String) (pat : Char) : String :=
  ⟨s.data.filter (fun c => c != pat)⟩

/-- The namespace derivation of `create_hybrid_structure`: the name of the
source file's parent directory; when that is falsy (empty) or a bare
separator, the drive with `:` and `\` characters removed. The enclosing
try/except would set `parent_name = 'root'` on an exception, but every
operation in the try-block is total, so that branch is unreachable. -/
def computeParentName (source_file : PyPath) : String :=
  let parent_name := source_file.parent.pyName
  if parent_name = ("") ∨ parent_name = ("\\") ∨ parent_name = ("/") then
    removeAllChar (removeAllChar source_file.drive (':')) ('\\')
  else parent_name

/-- `organize_files.create_hybrid_structure`: derive the namespace, create
`base_output_dir / category / parent_name` (skipped in dry-run), and run
the duplicate-name loop. Returns the filesystem after the directory
creation together with the chosen target path. -/
def create_hybrid_structure (category : String) (source_file : PyPath)
    (base_output_dir : List String) (fs : FS) (dry_run : Bool) : FS × List String :=
  let parent_name := computeParentName source_file
  let target_dir := pathJoin (pathJoin base_output_dir category) parent_name
  let fs1 := if dry_run then fs else mkdir_parents fs target_dir
  (fs1, collideResolve fs1 target_dir source_file)

/-- External failure conditions for one `os.symlink` call: given source and
target, an `OSError` reason if the operating system would refuse the call
(cross-device link, permission denied, path too long, unsupported
filesystem), and none if the call would succeed. -/
abbrev ErrOracle := PyPath → List String → Option String

/-- Outcome of one `os.symlink` call. -/
inductive SymlinkOutcome where
  | ok (fs : FS)
  | fileExistsErr
  | osError (reason : String)
deriving DecidableEq

/-- `os.symlink(source, target)`: `FileExistsError` when the target name
already exists, an `OSError` when the oracle reports one, otherwise the
filesystem extended with the new link. -/
def os_symlink (oracle : ErrOracle) (fs : FS) (source_file : PyPath)
    (target_path : List String) : SymlinkOutcome :=
  if target_path ∈ fs then SymlinkOutcome.fileExistsErr
  else
    match oracle source_file target_path with
    | some reason => SymlinkOutcome.osError reason
    | none => SymlinkOutcome.ok (target_path :: fs)

/-- The `stats` dictionary of `create_symbolic_links`. -/
structure Stats where
  created : Nat
  failed : Nat
  skipped : Nat
deriving DecidableEq

/-- The live-mode link attempt with its exception handlers: `os.symlink`
plus the `except FileExistsError` (counted as skipped) and `except
OSError`/`except Exception` (counted as failed) clauses; each branch
returns normally, so the caller's loop continues with the next file. -/
def materializeOne (oracle : ErrOracle) (fs : FS) (source_file : PyPath)
    (target_path : List String) (stats : Stats) : FS × Stats :=
  match os_symlink oracle fs source_file target_path with
  | SymlinkOutcome.ok fs2 => (fs2, { stats with created := stats.created + 1 })
  | SymlinkOutcome.fileExistsErr => (fs, { stats with skipped := stats.skipped + 1 })
  | SymlinkOutcome.osError _ => (fs, { stats with failed := stats.failed + 1 })

/-- The body of the per-file loop of `create_symbolic_links`: plan the
target via `create_hybrid_structure`, then either count a would-be
creation (dry-run) or attempt the link. -/
def linkStep (oracle : ErrOracle) (output_dir : List String) (dry_run : Bool)
    (category : String) (st : FS × Stats) (source_file : PyPath) : FS × Stats :=
  let planned := create_hybrid_structure category source_file output_dir st.1 dry_run
  if dry_run then
    (planned.1, { st.2 with created := st.2.created + 1 })
  else
    materializeOne oracle planned.1 source_file planned.2 st.2

/-- `organize_files.create_symbolic_links`: fold the per-file step over
every category and file, starting from zeroed statistics. -/
def create_symbolic_links (oracle : ErrOracle)
    (files_by_category : List (String × List PyPath))
    (output_dir : List String) (dry_run : Bool) (fs : FS) : FS × Stats :=
  files_by_category.foldl
    (fun st cf => cf.2.foldl (linkStep oracle output_dir dry_run cf.1) st)
    (fs, ⟨0, 0, 0⟩)

/-- The oracle of a healthy filesystem: no symlink call fails for an
external reason. -/
def noErr : ErrOracle := fun _ _ => none

/-- The total number of files in an inventory. -/
def totalFiles (files_by_category : List (String × List PyPath)) : Nat :=
  (files_by_category.map (fun cf => cf.2.length)).sum

theorem linkStep_dry (oracle : ErrOracle) (output_dir : List String) (category : String)
    (st : FS × Stats) (source_file : PyPath) :
    linkStep oracle output_dir true category st source_file =
      (st.1, { st.2 with created := st.2.created + 1 }) := by
  unfold linkStep create_hybrid_structure
  simp

theorem linkStep_live_noErr (output_dir : List String) (category : String)
    (st : FS × Stats) (source_file : PyPath) :
    linkStep noErr output_dir false category st source_file =
      (collideResolve
          (mkdir_parents st.1
            (pathJoin (pathJoin output_dir category) (computeParentName source_file)))
          (pathJoin (pathJoin output_dir category) (computeParentName source_file))
          source_file ::
        mkdir_parents st.1
          (pathJoin (pathJoin output_dir category) (computeParentName source_file)),
       { st.2 with created := st.2.created + 1 }) := by
  unfold linkStep create_hybrid_structure materializeOne os_symlink
  simp only [if_false, Bool.false_eq_true, if_neg (collideResolve_fresh _ _ _)]
  rfl

theorem linkStep_total (oracle : ErrOracle) (output_dir : List String) (dry_run : Bool)
    (category : String) (st : FS × Stats) (source_file : PyPath) :
    ((linkStep oracle output_dir dry_run category st source_file).2.created +
        (linkStep oracle output_dir dry_run category st source_file).2.failed +
        (linkStep oracle output_dir dry_run category st source_file).2.skipped =
      st.2.created + st.2.failed + st.2.skipped + 1) ∧
    st.2.created ≤ (linkStep oracle output_dir dry_run category st source_file).2.created ∧
    st.2.failed ≤ (linkStep oracle output_dir dry_run category st source_file).2.failed ∧
    st.2.skipped ≤ (linkStep oracle output_dir dry_run category st source_file).2.skipped := by
  unfold linkStep materializeOne
  cases dry_run with
  | true =>
    simp
    omega
  | false =>
    simp only [if_false, Bool.false_eq_true]
    split <;> simp <;> omega

theorem foldFiles_dry (oracle : ErrOracle) (output_dir : List String) (category : String)
    (files : List PyPath) :
    ∀ st : FS × Stats,
      files.foldl (linkStep oracle output_dir true category) st =
        (st.1, ⟨st.2.created + files.length, st.2.failed, st.2.skipped⟩) := by
  induction files with
  | nil =>
    intro st
    simp
  | cons f files ih =>
    intro st
    rw [List.foldl_cons, linkStep_dry, ih]
    simp only [List.length_cons]
    have harith : st.2.created + 1 + files.length = st.2.created + (files.length + 1) := by omega
    rw [harith]

theorem foldFiles_live_noErr (output_dir : List String) (category : String)
    (files : List PyPath) :
    ∀ st : FS × Stats,
      (files.foldl (linkStep noErr output_dir false category) st).2 =
        ⟨st.2.created + files.length, st.2.failed, st.2.skipped⟩ := by
  induction files with
  | nil =>
    intro st
    simp
  | cons f files ih =>
    intro st
    rw [List.foldl_cons, linkStep_live_noErr, ih]
    simp only [List.length_cons]
    have harith : st.2.created + 1 + files.length = st.2.created + (files.length + 1) := by omega
    rw [harith]

theorem run_dry (oracle : ErrOracle) (inv : List (String × List PyPath))
    (output_dir : List String) :
    ∀ st : FS × Stats,
      inv.foldl (fun st cf => cf.2.foldl (linkStep oracle output_dir true cf.1) st) st =
        (st.1, ⟨st.2.created + totalFiles inv, st.2.failed, st.2.skipped⟩) := by
  induction inv with
  | nil =>
    intro st
    simp [totalFiles]
  | cons cf inv ih =>
    intro st
    rw [List.foldl_cons, foldFiles_dry, ih]
    simp only [totalFiles, List.map_cons, List.sum_cons]
    have harith : st.2.created + cf.2.length + ((inv.map (fun cf => cf.2.length)).sum) =
        st.2.created + (cf.2.length + (inv.map (fun cf => cf.2.length)).sum) := by omega
    rw [harith]

theorem run_live_noErr (inv : List (String × List PyPath)) (output_dir : List String) :
    ∀ st : FS × Stats,
      (inv.foldl (fun st cf => cf.2.foldl (linkStep noErr output_dir false cf.1) st) st).2 =
        ⟨st.2.created + totalFiles inv, st.2.failed, st.2.skipped⟩ := by
  induction inv with
  | nil =>
    intro st
    simp [totalFiles]
  | cons cf inv ih =>
    intro st
    rw [List.foldl_cons, ih]
    rw [foldFiles_live_noErr]
    simp only [totalFiles, List.map_cons, List.sum_cons]
    have harith : st.2.created + cf.2.length + ((inv.map (fun cf => cf.2.length)).sum) =
        st.2.created + (cf.2.length + (inv.map (fun cf => cf.2.length)).sum) := by omega
    rw [harith]

theorem insertFold_mem_of_mem (l : List (List String)) :
    ∀ (fs : FS) (x : List String), x ∈ fs →
      x ∈ l.foldl (fun f p => if p ∈ f then f else p :: f) fs := by
  induction l with
  | nil => intro fs x hx; simpa using hx
  | cons a l ih =>
    intro fs x hx
    rw [List.foldl_cons]
    apply ih
    split
    · exact hx
    · exact List.mem_cons_of_mem a hx

theorem insertFold_mem_self (l : List (List String)) :
    ∀ (fs : FS) (x : List String), x ∈ l →
      x ∈ l.foldl (fun f p => if p ∈ f then f else p :: f) fs := by
  induction l with
  | nil => intro fs x hx; simp at hx
  | cons a l ih =>
    intro fs x hx
    rw [List.foldl_cons]
    rcases List.mem_cons.mp hx with rfl | hx
    · apply insertFold_mem_of_mem
      split
      · assumption
      · exact List.mem_cons_self x fs
    · exact ih _ x hx

theorem insertFold_nodup (l : List (List String)) :
    ∀ fs : FS, fs.Nodup →
      (l.foldl (fun f p => if p ∈ f then f else p :: f) fs).Nodup := by
  induction l with
  | nil => intro fs h; simpa using h
  | cons a l ih =>
    intro fs h
    rw [List.foldl_cons]
    apply ih
    split
    · exact h
    · exact List.nodup_cons.mpr ⟨by assumption, h⟩

theorem insertFold_noop (l : List (List String)) :
    ∀ fs : FS, (∀ p ∈ l, p ∈ fs) →
      l.foldl (fun f p => if p ∈ f then f else p :: f) fs = fs := by
  induction l with
  | nil => intro fs _; rfl
  | cons a l ih =>
    intro fs h
    rw [List.foldl_cons, if_pos (h a (List.mem_cons_self a l))]
    exact ih fs (fun p hp => h p (List.mem_cons_of_mem a hp))

theorem mkdir_parents_mem (fs : FS) (dir : List String) :
    ∀ p ∈ pathAncestors dir, p ∈ mkdir_parents fs dir :=
  fun p hp => insertFold_mem_self (pathAncestors dir) fs p hp

theorem mkdir_parents_mono (fs : FS) (dir : List String) (x : List String) (hx : x ∈ fs) :
    x ∈ mkdir_parents fs dir :=
  insertFold_mem_of_mem (pathAncestors dir) fs x hx

theorem mkdir_parents_nodup (fs : FS) (dir : List String) (h : fs.Nodup) :
    (mkdir_parents fs dir).Nodup :=
  insertFold_nodup (pathAncestors dir) fs h

theorem mkdir_parents_noop (fs : FS) (dir : List String)
    (h : ∀ p ∈ pathAncestors dir, p ∈ fs) : mkdir_parents fs dir = fs :=
  insertFold_noop (pathAncestors dir) fs h

theorem foldFiles_live_noErr_nodup (output_dir : List String) (category : String)
    (files : List PyPath) :
    ∀ st : FS × Stats, st.1.Nodup →
      ((files.foldl (linkStep noErr output_dir false category) st).1).Nodup := by
  induction files with
  | nil => intro st h; simpa using h
  | cons f files ih =>
    intro st h
    rw [List.foldl_cons, linkStep_live_noErr]
    apply ih
    show (_ :: mkdir_parents st.1 _).Nodup
    exact List.nodup_cons.mpr
      ⟨collideResolve_fresh _ _ _, mkdir_parents_nodup st.1 _ h⟩

theorem run_live_noErr_nodup (inv : List (String × List PyPath)) (output_dir : List String) :
    ∀ st : FS × Stats, st.1.Nodup →
      ((inv.foldl (fun st cf => cf.2.foldl (linkStep noErr output_dir false cf.1) st) st).1).Nodup := by
  induction inv with
  | nil => intro st h; simpa using h
  | cons cf inv ih =>
    intro st h
    rw [List.foldl_cons]
    exact ih _ (foldFiles_live_noErr_nodup output_dir cf.1 cf.2 st h)

theorem foldFiles_sum (oracle : ErrOracle) (output_dir : List String) (dry_run : Bool)
    (category : String) (files : List PyPath) :
    ∀ st : FS × Stats,
      (files.foldl (linkStep oracle output_dir dry_run category) st).2.created +
        (files.foldl (linkStep oracle output_dir dry_run category) st).2.failed +
        (files.foldl (linkStep oracle output_dir dry_run category) st).2.skipped =
      st.2.created + st.2.failed + st.2.skipped + files.length := by
  induction files with
  | nil =>
    intro st
    simp
  | cons f files ih =>
    intro st
    rw [List.foldl_cons]
    have h1 := (linkStep_total oracle output_dir dry_run category st f).1
    have h2 := ih (linkStep oracle output_dir dry_run category st f)
    simp only [List.length_cons]
    omega

theorem run_sum (oracle : ErrOracle) (inv : List (String × List PyPath))
    (output_dir : List String) (dry_run : Bool) :
    ∀ st : FS × Stats,
      (inv.foldl (fun st cf => cf.2.foldl (linkStep oracle output_dir dry_run cf.1) st) st).2.created +
        (inv.foldl (fun st cf => cf.2.foldl (linkStep oracle output_dir dry_run cf.1) st) st).2.failed +
        (inv.foldl (fun st cf => cf.2.foldl (linkStep oracle output_dir dry_run cf.1) st) st).2.skipped =
      st.2.created + st.2.failed + st.2.skipped + totalFiles inv := by
  induction inv with
  | nil =>
    intro st
    simp [totalFiles]
  | cons cf inv ih =>
    intro st
    rw [List.foldl_cons]
    have h1 := foldFiles_sum oracle output_dir dry_run cf.1 cf.2 st
    have h2 := ih (cf.2.foldl (linkStep oracle output_dir dry_run cf.1) st)
    simp only [totalFiles, List.map_cons, List.sum_cons] at h2 ⊢
    omega

/-- Claim C10: each inventoried file increments exactly one of the three
counters, so after any materialization pass (live or preview, with any
external failure behavior) created + failed + skipped equals the number of
inventoried files; and each counter, a natural number, only ever grows
step by step. -/
theorem claim10_stats_partition :
    (∀ (oracle : ErrOracle) (inv : List (String × List PyPath)) (output_dir : List String)
        (dry_run : Bool) (fs : FS),
      (create_symbolic_links oracle inv output_dir dry_run fs).2.created +
        (create_symbolic_links oracle inv output_dir dry_run fs).2.failed +
        (create_symbolic_links oracle inv output_dir dry_run fs).2.skipped = totalFiles inv) ∧
    (∀ (oracle : ErrOracle) (output_dir : List String) (dry_run : Bool) (category : String)
        (st : FS × Stats) (source_file : PyPath),
      st.2.created ≤ (linkStep oracle output_dir dry_run category st source_file).2.created ∧
      st.2.failed ≤ (linkStep oracle output_dir dry_run category st source_file).2.failed ∧
      st.2.skipped ≤ (linkStep oracle output_dir dry_run category st source_file).2.skipped) := by
  constructor
  · intro oracle inv output_dir dry_run fs
    unfold create_symbolic_links
    have := run_sum oracle inv output_dir dry_run (fs, ⟨0, 0, 0⟩)
    simpa using this
  · intro oracle output_dir dry_run category st source_file
    exact (linkStep_total oracle output_dir dry_run category st source_file).2

/-- Claim C5: a preview run mutates nothing — the output filesystem is
returned unchanged — and, over a healthy filesystem, its would-create
count equals the created count of the live run on the same inventory,
output root and initial filesystem. -/
theorem claim5_preview_live_equiv :
    ∀ (inv : List (String × List PyPath)) (output_dir : List String) (fs : FS),
      (create_symbolic_links noErr inv output_dir true fs).1 = fs ∧
      (create_symbolic_links noErr inv output_dir true fs).2.created =
        (create_symbolic_links noErr inv output_dir false fs).2.created := by
  intro inv output_dir fs
  unfold create_symbolic_links
  rw [run_dry noErr inv output_dir (fs, ⟨0, 0, 0⟩)]
  refine ⟨rfl, ?_⟩
  rw [run_live_noErr inv output_dir (fs, ⟨0, 0, 0⟩)]

def pic1 : PyPath := ⟨("") , ("/") , [("data"), ("Photos"), ("img.jpg")]⟩

/-- Claim C1 counterexample: one picture, one empty output root, two
successive live runs with nothing failing. On the second run the planner
finds the existing link `out/pictures/Photos/img.jpg`, steps to the
suffixed name instead of skipping, and `os.symlink` succeeds, so run 2
reports created = 1 (the claim says 0) and skipped = 0 (the claim says the
file is Skipped); the filesystem gains `out/pictures/Photos/img_1.jpg`. -/
theorem claim1_counterexample :
    (create_symbolic_links noErr [(("pictures"), [pic1])] ([("out")]) false
        (create_symbolic_links noErr [(("pictures"), [pic1])] ([("out")]) false []).1).2 =
      ⟨1, 0, 0⟩ ∧
    [("out"), ("pictures"), ("Photos"), ("img_1.jpg")] ∈
      (create_symbolic_links noErr [(("pictures"), [pic1])] ([("out")]) false
        (create_symbolic_links noErr [(("pictures"), [pic1])] ([("out")]) false []).1).1 := by
  decide

/-- Claim C1 (amended): the pipeline is not idempotent. Re-running the
materializer in live mode over an unchanged inventory and output root
(no filesystem failures) again produces one Created link per inventoried
file — at collision-suffixed target paths — and Skipped stays 0; the
second run's statistics are (totalFiles, 0, 0), not (0, 0, totalFiles). -/
theorem claim1_amended :
    ∀ (inv : List (String × List PyPath)) (output_dir : List String) (fs0 : FS),
      (create_symbolic_links noErr inv output_dir false
          (create_symbolic_links noErr inv output_dir false fs0).1).2 =
        ⟨totalFiles inv, 0, 0⟩ := by
  intro inv output_dir fs0
  unfold create_symbolic_links
  rw [run_live_noErr inv output_dir]
  simp

def picA : PyPath := ⟨("") , ("/") , [("a"), ("pics"), ("img.jpg")]⟩

def picB : PyPath := ⟨("") , ("/") , [("b"), ("pics"), ("img.jpg")]⟩

/-- Claim C2 counterexample: two distinct source files with the same name
and the same parent-directory name, planned in one preview run over an
empty output root. The preview step leaves the filesystem untouched and
the planner consults only the filesystem — there is no in-memory claimed
set — so the two plans of the run resolve to the same target path. -/
theorem claim2_counterexample :
    picA ≠ picB ∧
    (linkStep noErr ([("out")]) true ("pictures") (([] : FS), ⟨0, 0, 0⟩) picA).1 = ([] : FS) ∧
    (create_hybrid_structure ("pictures") picA ([("out")]) [] true).2 =
      (create_hybrid_structure ("pictures") picB ([("out")]) [] true).2 := by
  decide

/-- Claim C2 (amended): the planner consults only the filesystem state, so
the no-two-plans-collide invariant holds exactly in live mode with no
materialization failures: the duplicate-name loop never returns a path
that exists, each created link is inserted into the filesystem before the
next plan, and hence a live failure-free run keeps all filesystem entries
(directories and links) pairwise distinct; in preview mode two plans can
coincide. -/
theorem claim2_amended :
    (∀ (fs : FS) (target_dir : List String) (source_file : PyPath),
      collideResolve fs target_dir source_file ∉ fs) ∧
    (∀ (inv : List (String × List PyPath)) (output_dir : List String) (fs0 : FS),
      fs0.Nodup → ((create_symbolic_links noErr inv output_dir false fs0).1).Nodup) := by
  constructor
  · exact collideResolve_fresh
  · intro inv output_dir fs0 h
    exact run_live_noErr_nodup inv output_dir (fs0, ⟨0, 0, 0⟩) h

theorem claim2_witness :
    ((create_symbolic_links noErr [(("pictures"), [picA, picB])] ([("out")]) false []).1).Nodup :=
  claim2_amended.2 [(("pictures"), [picA, picB])] ([("out")]) [] List.nodup_nil

def notesFile : PyPath := ⟨("") , ("/") , [("notes.txt")]⟩

/-- Claim C3, evaluated at the failing input `/notes.txt`: the parent name
is empty and the drive of a rootless POSIX-style path is empty, so the
drive-derived token is the empty string — not the claimed non-empty
literal "root", whose except-branch cannot fire because every operation in
the try-block is total. The empty namespace component is then dropped by
path joining: the planned target sits directly under the category
directory. -/
theorem claim3_namespace_empty_at_posix_root :
    computeParentName notesFile = ("") ∧
    (("") : String) ≠ ("root") ∧
    (create_hybrid_structure ("text") notesFile ([("out")]) [] true).2 =
      [("out"), ("text"), ("notes.txt")] := by
  decide

def alwaysErr : ErrOracle := fun _ _ => some ("permission denied")

/-- Claim C8: in live mode, a target that already exists at the moment of
the `os.symlink` call yields the Skipped outcome (skipped counter
incremented, filesystem unchanged); any other link-creation failure yields
Failed with its reason (failed counter incremented); and in every case the
per-file loop keeps going — the statistics of a category batch always
account for every one of its files, so no failure aborts the batch. -/
theorem claim8_materializer_outcomes :
    ∀ (oracle : ErrOracle) (fs : FS) (source_file : PyPath) (target_path : List String)
      (stats : Stats),
      (target_path ∈ fs →
        materializeOne oracle fs source_file target_path stats =
          (fs, { stats with skipped := stats.skipped + 1 })) ∧
      (target_path ∉ fs → ∀ reason, oracle source_file target_path = some reason →
        materializeOne oracle fs source_file target_path stats =
          (fs, { stats with failed := stats.failed + 1 })) ∧
      (∀ (output_dir : List String) (category : String) (st : FS × Stats)
          (files : List PyPath),
        (files.foldl (linkStep oracle output_dir false category) st).2.created +
          (files.foldl (linkStep oracle output_dir false category) st).2.failed +
          (files.foldl (linkStep oracle output_dir false category) st).2.skipped =
        st.2.created + st.2.failed + st.2.skipped + files.length) := by
  intro oracle fs source_file target_path stats
  refine ⟨?_, ?_, ?_⟩
  · intro h
    unfold materializeOne os_symlink
    rw [if_pos h]
  · intro h reason hr
    unfold materializeOne os_symlink
    rw [if_neg h, hr]
  · intro output_dir category st files
    exact foldFiles_sum oracle output_dir false category files st

theorem claim8_witness :
    materializeOne noErr ([[("out")]]) pic1 ([("out")]) ⟨0, 0, 0⟩ =
      ([[("out")]], ⟨0, 0, 1⟩) ∧
    materializeOne alwaysErr [] pic1 ([("out")]) ⟨0, 0, 0⟩ = ([], ⟨0, 1, 0⟩) :=
  ⟨(claim8_materializer_outcomes noErr ([[("out")]]) pic1 ([("out")]) ⟨0, 0, 0⟩).1 (by decide),
   (claim8_materializer_outcomes alwaysErr [] pic1 ([("out")]) ⟨0, 0, 0⟩).2.1 (by decide)
     ("permission denied") rfl⟩

/-- The target directory computed by `create_hybrid_structure`:
`base_output_dir / category / parent_name`. -/
def plannedDir (output_dir : List String) (category : String) (source_file : PyPath) :
    List String :=
  pathJoin (pathJoin output_dir category) (computeParentName source_file)

theorem create_hybrid_structure_live (category : String) (source_file : PyPath)
    (output_dir : List String) (fs : FS) :
    create_hybrid_structure category source_file output_dir fs false =
      (mkdir_parents fs (plannedDir output_dir category source_file),
       collideResolve (mkdir_parents fs (plannedDir output_dir category source_file))
         (plannedDir output_dir category source_file) source_file) :=
  rfl

theorem linkStep_live_planned (output_dir : List String) (category : String)
    (st : FS × Stats) (source_file : PyPath) :
    linkStep noErr output_dir false category st source_file =
      (collideResolve (mkdir_parents st.1 (plannedDir output_dir category source_file))
          (plannedDir output_dir category source_file) source_file ::
        mkdir_parents st.1 (plannedDir output_dir category source_file),
       { st.2 with created := st.2.created + 1 }) :=
  linkStep_live_noErr output_dir category st source_file

theorem strAppend_empty (s : String) : s ++ ("") = s :=
  strExt (by rw [strData_append]; exact List.append_nil _)

theorem pathJoin_ne (dir : List String) (s : String) (h : s ≠ ("")) :
    pathJoin dir s = dir ++ [s] :=
  if_neg h

theorem pathJoin_name_ne_suffixed (dir : List String) (sf : PyPath) (k : Nat)
    (h : sf.pyName ≠ ("")) :
    pathJoin dir sf.pyName ≠ pathJoin dir (suffixedName sf k) := by
  rw [pathJoin_ne dir _ h, pathJoin_ne dir _ (suffixedName_ne_empty sf k)]
  intro heq
  have h1 := List.append_cancel_left heq
  simp only [List.cons.injEq, and_true] at h1
  exact suffixedName_ne_name sf k h1.symm

/-- Claim C9: two distinct source files with the same filename heading for
the same category/namespace directory in one live run (no external
failures, canonical and first suffixed targets initially free): the first
plan is the canonical `dir/<filename>`, the second plan is
`dir/<stem>_1<suffix>`, after both steps both links exist in the
filesystem, the two target paths are distinct (nothing overwritten), and a
filename without an extension is suffixed to `<name>_k` with no extension
appended. -/
theorem claim9_collision_suffix
    (s1 s2 : PyPath) (category : String) (output_dir : List String) (fs : FS) (stats : Stats)
    (hname : s1.pyName = s2.pyName)
    (hne : s2.pyName ≠ (""))
    (hns : computeParentName s1 = computeParentName s2)
    (hfree0 : pathJoin (plannedDir output_dir category s1) s1.pyName ∉
      mkdir_parents fs (plannedDir output_dir category s1))
    (hfree1 : pathJoin (plannedDir output_dir category s1) (suffixedName s2 1) ∉
      mkdir_parents fs (plannedDir output_dir category s1)) :
    (create_hybrid_structure category s1 output_dir fs false).2 =
        pathJoin (plannedDir output_dir category s1) s1.pyName ∧
    (create_hybrid_structure category s2 output_dir
        (linkStep noErr output_dir false category (fs, stats) s1).1 false).2 =
        pathJoin (plannedDir output_dir category s1) (suffixedName s2 1) ∧
    pathJoin (plannedDir output_dir category s1) s1.pyName ∈
      (linkStep noErr output_dir false category
        (linkStep noErr output_dir false category (fs, stats) s1) s2).1 ∧
    pathJoin (plannedDir output_dir category s1) (suffixedName s2 1) ∈
      (linkStep noErr output_dir false category
        (linkStep noErr output_dir false category (fs, stats) s1) s2).1 ∧
    pathJoin (plannedDir output_dir category s1) s1.pyName ≠
      pathJoin (plannedDir output_dir category s1) (suffixedName s2 1) ∧
    (∀ (sf : PyPath) (k : Nat), sf.suffix = ("") →
      suffixedName sf k = sf.pyName ++ ("_") ++ natToStr k) := by
  have hne1 : s1.pyName ≠ ("") := by rw [hname]; exact hne
  have hdir2 : plannedDir output_dir category s2 = plannedDir output_dir category s1 := by
    unfold plannedDir
    rw [hns]
  have hstep1 : (linkStep noErr output_dir false category (fs, stats) s1).1 =
      pathJoin (plannedDir output_dir category s1) s1.pyName ::
        mkdir_parents fs (plannedDir output_dir category s1) := by
    rw [linkStep_live_planned output_dir category (fs, stats) s1]
    exact congrArg (fun t => t :: mkdir_parents fs (plannedDir output_dir category s1))
      (collideResolve_of_free _ _ _ hfree0)
  have hsuffne : pathJoin (plannedDir output_dir category s1) s1.pyName ≠
      pathJoin (plannedDir output_dir category s1) (suffixedName s2 1) := by
    rw [hname]
    exact pathJoin_name_ne_suffixed _ s2 1 hne
  have hsuff_notin : pathJoin (plannedDir output_dir category s1) (suffixedName s2 1) ∉
      pathJoin (plannedDir output_dir category s1) s1.pyName ::
        mkdir_parents fs (plannedDir output_dir category s1) := by
    intro hmem
    rcases List.mem_cons.mp hmem with heq | hmem1
    · exact hsuffne heq.symm
    · exact hfree1 hmem1
  have hnoop : mkdir_parents
      (pathJoin (plannedDir output_dir category s1) s1.pyName ::
        mkdir_parents fs (plannedDir output_dir category s1))
      (plannedDir output_dir category s1) =
      pathJoin (plannedDir output_dir category s1) s1.pyName ::
        mkdir_parents fs (plannedDir output_dir category s1) :=
    mkdir_parents_noop _ _
      (fun p hp => List.mem_cons_of_mem _ (mkdir_parents_mem fs _ p hp))
  have hcan_mem : pathJoin (plannedDir output_dir category s1) s2.pyName ∈
      pathJoin (plannedDir output_dir category s1) s1.pyName ::
        mkdir_parents fs (plannedDir output_dir category s1) := by
    rw [← hname]
    exact List.mem_cons_self _ _
  have hsecond : collideResolve
      (pathJoin (plannedDir output_dir category s1) s1.pyName ::
        mkdir_parents fs (plannedDir output_dir category s1))
      (plannedDir output_dir category s1) s2 =
      pathJoin (plannedDir output_dir category s1) (suffixedName s2 1) :=
    collideResolve_second _ _ s2 hcan_mem hsuff_notin
  have hplan2 : (create_hybrid_structure category s2 output_dir
      (linkStep noErr output_dir false category (fs, stats) s1).1 false).2 =
      pathJoin (plannedDir output_dir category s1) (suffixedName s2 1) := by
    rw [create_hybrid_structure_live]
    rw [hstep1, hdir2, hnoop, hsecond]
  have hstep2 : (linkStep noErr output_dir false category
      (linkStep noErr output_dir false category (fs, stats) s1) s2).1 =
      pathJoin (plannedDir output_dir category s1) (suffixedName s2 1) ::
        pathJoin (plannedDir output_dir category s1) s1.pyName ::
          mkdir_parents fs (plannedDir output_dir category s1) := by
    rw [linkStep_live_planned output_dir category
      (linkStep noErr output_dir false category (fs, stats) s1) s2]
    rw [hstep1, hdir2, hnoop, hsecond]
  refine ⟨?_, hplan2, ?_, ?_, hsuffne, ?_⟩
  · rw [create_hybrid_structure_live]
    exact collideResolve_of_free _ _ _ hfree0
  · rw [hstep2]
    exact List.mem_cons_of_mem _ (List.mem_cons_self _ _)
  · rw [hstep2]
    exact List.mem_cons_self _ _
  · intro sf k hsfx
    have hstem : sf.stem = sf.pyName := by
      have h := stem_append_suffix sf
      rw [hsfx, strAppend_empty] at h
      exact h
    unfold suffixedName
    rw [hstem, hsfx, strAppend_empty]

theorem claim9_witness :
    (create_hybrid_structure ("pictures") picA ([("out")]) ([] : FS) false).2 =
      [("out"), ("pictures"), ("pics"), ("img.jpg")] ∧
    [("out"), ("pictures"), ("pics"), ("img_1.jpg")] ∈
      (linkStep noErr ([("out")]) false ("pictures")
        (linkStep noErr ([("out")]) false ("pictures") (([] : FS), ⟨0, 0, 0⟩) picA) picB).1 := by
  have h := claim9_collision_suffix picA picB ("pictures") ([("out")]) [] ⟨0, 0, 0⟩
    (by decide) (by decide) (by decide) (by decide) (by decide)
  refine ⟨?_, ?_⟩
  · rw [h.1]
    decide
  · have heq : pathJoin (plannedDir ([("out")]) ("pictures") picA) (suffixedName picB 1) =
        [("out"), ("pictures"), ("pics"), ("img_1.jpg")] := by decide
    rw [← heq]
    exact h.2.2.2.1
